import Mathlib

/-!
# Verification of the NYC-311 batch ETL loader

Shallow embedding of `src/etl/etl.py`: the cleaning step (`clean_data`),
the NaN-to-None conversion (`safe_value`), and the chunked main loop with
its per-row `REPLACE INTO` writes, per-row error handling, per-chunk
commits and the final statistics.

A pandas cell is modelled by `Val`: strings, integers, floats (as exact
rationals), timestamps (as seconds since the Unix epoch), the pandas
missing-value marker `vNaN` (covering both float NaN and NaT) and the
Python `None` value `vNone`.  A DataFrame chunk is a column list plus a
list of rows, each row an association list from column name to cell.
The relational sink is a list of 9-field tuples; `REPLACE INTO` deletes
any row sharing the primary key and inserts the new row.  Database-level
per-row write failures (e.g. constraint violations) come from the MySQL
server, which is outside the program, so they are modelled by an oracle
`fails : SRow → Bool`; likewise fatal events of the run (a source read
error, a failing commit) are part of the modelled input stream.
-/

set_option autoImplicit false

namespace Etl

/-- A pandas/Python scalar cell value. `vNaN` models the pandas missing
markers (float NaN and NaT); `vNone` models Python `None`. -/
inductive Val where
  | vStr (s : String)
  | vInt (n : Int)
  | vFloat (q : Rat)
  | vTime (t : Int)
  | vNaN
  | vNone
deriving Repr, DecidableEq

/-- Models `pd.isna` on a scalar: true on NaN/NaT and on `None`. -/
def pdIsna : Val → Bool
  | .vNaN => true
  | .vNone => true
  | _ => false

/-- Models `Series.fillna('UNKNOWN')` on one cell: missing values
(NaN/NaT/None) are replaced by the string `"UNKNOWN"`. -/
def fillnaUnknown (v : Val) : Val :=
  if pdIsna v then .vStr "UNKNOWN" else v

/-- Models `Series.replace('', 'UNKNOWN')` on one cell: exactly the empty
string is replaced; any other value (including whitespace-only strings)
is left unchanged. -/
def replaceEmptyUnknown (v : Val) : Val :=
  if v = .vStr "" then .vStr "UNKNOWN" else v

/-- Models the per-cell effect of `df.replace({np.nan: None})`. -/
def nanToNone (v : Val) : Val :=
  if v = .vNaN then .vNone else v

/-- Split a character list at every occurrence of `sep` (the single-
character case of `String.splitOn`; never returns the empty list). -/
def splitOnChar (sep : Char) : List Char → List (List Char)
  | [] => [[]]
  | c :: cs =>
    if c = sep then [] :: splitOnChar sep cs
    else
      match splitOnChar sep cs with
      | [] => [[c]]
      | g :: gs => (c :: g) :: gs

/-- Strip leading and trailing whitespace (the `String.trim` behaviour). -/
def trimChars (cs : List Char) : List Char :=
  ((cs.dropWhile Char.isWhitespace).reverse.dropWhile Char.isWhitespace).reverse

/-- Digits of a decimal numeral folded into a `Nat` (caller checks that
every character is a digit). -/
def digitsToNat (s : List Char) : Nat :=
  s.foldl (fun a c => a * 10 + (c.toNat - 48)) 0

/-- `some n` iff `s` is a nonempty all-digit string denoting `n`. -/
def parseNatDigits (s : List Char) : Option Nat :=
  if 0 < s.length ∧ s.all Char.isDigit then some (digitsToNat s) else none

/-- Gregorian leap year. -/
def isLeap (y : Nat) : Bool :=
  y % 4 = 0 && (y % 100 ≠ 0 || y % 400 = 0)

/-- Length of month `m` of year `y`. -/
def daysInMonth (y m : Nat) : Nat :=
  if m = 2 then (if isLeap y then 29 else 28)
  else if m = 4 ∨ m = 6 ∨ m = 9 ∨ m = 11 then 30
  else 31

/-- Days from 1970-01-01 to the civil date `y-m-d` (standard civil
calendar day-count formula; used only on parser-validated dates). -/
def daysFromCivil (y m d : Nat) : Int :=
  let yy : Int := if m ≤ 2 then (y : Int) - 1 else (y : Int)
  let era : Int := (if 0 ≤ yy then yy else yy - 399) / 400
  let yoe : Int := yy - era * 400
  let mp : Int := ((m : Int) + 9) % 12
  let doy : Int := (153 * mp + 2) / 5 + (d : Int) - 1
  let doe : Int := yoe * 365 + yoe / 4 - yoe / 100 + doy
  era * 146097 + doe - 719468

/-- Epoch day count iff `s` is a valid `YYYY-MM-DD`-shaped civil date. -/
def parseYMD (s : List Char) : Option Int :=
  match splitOnChar '-' s with
  | [ys, ms, ds] =>
    match parseNatDigits ys, parseNatDigits ms, parseNatDigits ds with
    | some y, some m, some d =>
      if 1 ≤ m ∧ m ≤ 12 ∧ 1 ≤ d ∧ d ≤ daysInMonth y m then
        some (daysFromCivil y m d)
      else none
    | _, _, _ => none
  | _ => none

/-- Seconds within the day denoted by `HH:MM` or `HH:MM:SS`. -/
def parseTimeOfDay (s : List Char) : Option Nat :=
  match splitOnChar ':' s with
  | [hs, ms] =>
    match parseNatDigits hs, parseNatDigits ms with
    | some h, some m => if h < 24 ∧ m < 60 then some (h * 3600 + m * 60) else none
    | _, _ => none
  | [hs, ms, ss] =>
    match parseNatDigits hs, parseNatDigits ms, parseNatDigits ss with
    | some h, some m, some sec =>
      if h < 24 ∧ m < 60 ∧ sec < 60 then some (h * 3600 + m * 60 + sec) else none
    | _, _, _ => none
  | _ => none

/-- ISO-like date-string parser, modelling the strings `pd.to_datetime`
accepts in this pipeline: `YYYY-MM-DD`, optionally followed by a time of
day. Result is seconds since the Unix epoch. -/
def parseDateStr (s : String) : Option Int :=
  match splitOnChar ' ' (trimChars s.data) with
  | [d] => (parseYMD d).map (· * 86400)
  | [d, t] =>
    match parseYMD d, parseTimeOfDay t with
    | some days, some secs => some (days * 86400 + secs)
    | _, _ => none
  | _ => none

/-- Decimal numeric-string parser, modelling the plain decimal literals
`pd.to_numeric` accepts: optional sign, digits, optional fraction. -/
def parseDecimal (s : String) : Option Rat :=
  let t := trimChars s.data
  let sign : Rat := if t.head? = some '-' then -1 else 1
  let body := if t.head? = some '-' ∨ t.head? = some '+' then t.tail else t
  match splitOnChar '.' body with
  | [ip] =>
    if 0 < ip.length ∧ ip.all Char.isDigit then some (sign * digitsToNat ip) else none
  | [ip, fp] =>
    if (0 < ip.length ∨ 0 < fp.length) ∧ ip.all Char.isDigit ∧ fp.all Char.isDigit then
      some (sign * ((digitsToNat ip : Rat) + (digitsToNat fp : Rat) / (10 ^ fp.length : Nat)))
    else none
  | _ => none

/-- Floor of an exact rational (`num` and `den` are already reduced and
`den` is positive, so floored integer division gives the floor). -/
def ratFloor (q : Rat) : Int :=
  Int.fdiv q.num q.den

/-- Models `pd.to_datetime(·, errors='coerce')` on one cell: strings are
parsed (unparseable ones coerce to NaT, i.e. `vNaN`), missing values stay
missing, datetimes pass through, and numbers are read as epoch offsets. -/
def pdToDatetime (v : Val) : Val :=
  match v with
  | .vStr s => match parseDateStr s with
    | some t => .vTime t
    | none => .vNaN
  | .vTime t => .vTime t
  | .vInt n => .vTime n
  | .vFloat q => .vTime (ratFloor q)
  | .vNaN => .vNaN
  | .vNone => .vNaN

/-- Models `pd.to_numeric(·, errors='coerce')` on one cell: numeric
strings are parsed (non-numeric ones coerce to NaN), numbers pass
through, missing values stay missing, datetimes become integers. -/
def pdToNumeric (v : Val) : Val :=
  match v with
  | .vStr s => match parseDecimal s with
    | some q => .vFloat q
    | none => .vNaN
  | .vInt n => .vInt n
  | .vFloat q => .vFloat q
  | .vTime t => .vInt t
  | .vNaN => .vNaN
  | .vNone => .vNaN

/-- One DataFrame row: an association list from column name to cell. -/
abbrev Row : Type := List (String × Val)

/-- First value stored under column `c`, if any. -/
def rlookup (c : String) : Row → Option Val
  | [] => none
  | (k, v) :: r => if k = c then some v else rlookup c r

/-- Models pandas `Series.get(c)` on a row: `None` when the label is
absent. -/
def rowGet (r : Row) (c : String) : Val :=
  match rlookup c r with
  | some v => v
  | none => .vNone

/-- Models pandas `Series.get(c, default)` on a row. -/
def rowGetD (r : Row) (c : String) (d : Val) : Val :=
  match rlookup c r with
  | some v => v
  | none => d

/-- Apply `f` to every cell stored under column `c` of one row. -/
def mapColRow (c : String) (f : Val → Val) (r : Row) : Row :=
  r.map (fun p => if p.1 = c then (p.1, f p.2) else p)

/-- A DataFrame chunk: its column names and its rows. -/
structure Frame where
  cols : List String
  rows : List Row
deriving Repr, DecidableEq

/-- Well-formed chunk: every row carries exactly the frame's columns, in
order (as pandas guarantees for the rows of one DataFrame). -/
def Frame.Wf (df : Frame) : Prop :=
  ∀ r ∈ df.rows, r.map Prod.fst = df.cols

/-- Models `df[c] = df[c].map f` (column assignment). -/
def mapFrameCol (c : String) (f : Val → Val) (df : Frame) : Frame :=
  ⟨df.cols, df.rows.map (mapColRow c f)⟩

/-- Models `df.replace({np.nan: None})`: a whole-frame cell map. -/
def mapFrameAll (f : Val → Val) (df : Frame) : Frame :=
  ⟨df.cols, df.rows.map (fun r => r.map (fun p => (p.1, f p.2)))⟩

/-- Embedding of `clean_data` (etl.py:20-41): fix missing boroughs when
the column exists, coerce the date columns, coerce the coordinate
columns, then replace every remaining NaN by `None`. -/
def clean_data (df : Frame) : Frame :=
  let df := if "Borough" ∈ df.cols then
      mapFrameCol "Borough" (fun v => replaceEmptyUnknown (fillnaUnknown v)) df
    else df
  let df := if "Created Date" ∈ df.cols then mapFrameCol "Created Date" pdToDatetime df else df
  let df := if "Closed Date" ∈ df.cols then mapFrameCol "Closed Date" pdToDatetime df else df
  let df := if "Latitude" ∈ df.cols then mapFrameCol "Latitude" pdToNumeric df else df
  let df := if "Longitude" ∈ df.cols then mapFrameCol "Longitude" pdToNumeric df else df
  mapFrameAll nanToNone df

/-- The column labels of one row. -/
def keys (r : Row) : List String :=
  r.map Prod.fst

/-- The action of `clean_data` on one row of a chunk whose column list is
`cols` (the row-wise view of the same five conditional column rewrites
followed by the global NaN-to-None replacement). -/
def rowClean (cols : List String) (r : Row) : Row :=
  let r := if "Borough" ∈ cols then
      mapColRow "Borough" (fun v => replaceEmptyUnknown (fillnaUnknown v)) r
    else r
  let r := if "Created Date" ∈ cols then mapColRow "Created Date" pdToDatetime r else r
  let r := if "Closed Date" ∈ cols then mapColRow "Closed Date" pdToDatetime r else r
  let r := if "Latitude" ∈ cols then mapColRow "Latitude" pdToNumeric r else r
  let r := if "Longitude" ∈ cols then mapColRow "Longitude" pdToNumeric r else r
  r.map (fun p => (p.1, nanToNone p.2))

/-- Embedding of `safe_value` (etl.py:43-47): convert pandas missing
values to Python `None`, pass everything else unchanged. -/
def safe_value (v : Val) : Val :=
  if pdIsna v then .vNone else v

/-- One row of the `service_requests` sink table: the fixed ordered
9-field tuple bound by the `REPLACE INTO` statement. -/
structure SRow where
  unique_key : Val
  created_date : Val
  closed_date : Val
  agency : Val
  complaint_type : Val
  descriptor : Val
  borough : Val
  latitude : Val
  longitude : Val
deriving Repr, DecidableEq

/-- The 9 parameters bound at etl.py:83-93: `safe_value` of each looked-up
cell, with `'UNKNOWN'` as the lookup default for the borough. -/
def bindRow (row : Row) : SRow where
  unique_key := safe_value (rowGet row "Unique Key")
  created_date := safe_value (rowGet row "Created Date")
  closed_date := safe_value (rowGet row "Closed Date")
  agency := safe_value (rowGet row "Agency")
  complaint_type := safe_value (rowGet row "Complaint Type")
  descriptor := safe_value (rowGet row "Descriptor")
  borough := safe_value (rowGetD row "Borough" (.vStr "UNKNOWN"))
  latitude := safe_value (rowGet row "Latitude")
  longitude := safe_value (rowGet row "Longitude")

/-- The bound parameters in statement order. -/
def boundParams (row : Row) : List Val :=
  let r := bindRow row
  [r.unique_key, r.created_date, r.closed_date, r.agency, r.complaint_type,
   r.descriptor, r.borough, r.latitude, r.longitude]

/-- MySQL `REPLACE INTO` semantics on the `service_requests` table: every
row sharing the primary key `unique_key` is deleted, then the new row is
inserted. -/
def replaceInto (db : List SRow) (r : SRow) : List SRow :=
  db.filter (fun x => decide (x.unique_key ≠ r.unique_key)) ++ [r]

/-- Mutable state of the main loop: the transaction's working view of the
table (`db`), the last committed snapshot (`committedDb`), and the three
counters/logs of etl.py:57-59 (`printed` records the keys of the error
messages actually printed). -/
structure EtlState where
  db : List SRow
  committedDb : List SRow
  total_rows : Nat
  error_count : Nat
  printed : List Val
deriving Repr, DecidableEq

/-- The state at etl.py:57-59: empty table view, zero counters. -/
def initState : EtlState := ⟨[], [], 0, 0, []⟩

/-- Models `conn.commit()`: the working view becomes durable. -/
def commitTx (st : EtlState) : EtlState :=
  { st with committedDb := st.db }

/-- Models `conn.rollback()`: the working view reverts to the last
committed snapshot. -/
def rollbackTx (st : EtlState) : EtlState :=
  { st with db := st.committedDb }

/-- The per-row try/except body (etl.py:77-98) on an already-bound tuple:
on success the `REPLACE` lands in the transaction view; on a write error
the counter is incremented and the message is printed only while the
counter is at most 10, then the loop continues. -/
def execRow (fails : SRow → Bool) (st : EtlState) (r : SRow) : EtlState :=
  if fails r then
    let ec := st.error_count + 1
    { st with
      error_count := ec
      printed := if ec ≤ 10 then st.printed ++ [r.unique_key] else st.printed }
  else
    { st with db := replaceInto st.db r }

/-- One iteration of `for _, row in chunk.iterrows()`: bind the 9
parameters, then execute. -/
def writeRow (fails : SRow → Bool) (st : EtlState) (row : Row) : EtlState :=
  execRow fails st (bindRow row)

/-- The whole row loop of one chunk. -/
def processRows (fails : SRow → Bool) (st : EtlState) (rows : List Row) : EtlState :=
  rows.foldl (writeRow fails) st

/-- The row loop seen at the level of already-bound tuples. -/
def execRows (fails : SRow → Bool) (st : EtlState) (rs : List SRow) : EtlState :=
  rs.foldl (execRow fails) st

/-- One successful chunk iteration (etl.py:68-102): clean, write every
row, commit, then add the chunk's length to the running total. -/
def processChunk (fails : SRow → Bool) (st : EtlState) (df : Frame) : EtlState :=
  let cleaned := clean_data df
  let st := processRows fails st cleaned.rows
  let st := commitTx st
  { st with total_rows := st.total_rows + cleaned.rows.length }

/-- One chunk iteration with its commit outcome: `commitOk` is false when
`conn.commit()` raises; the exception then escapes with the state as it
stood at the failed commit (rows written but not durable, running total
not yet increased). -/
def stepChunk (fails : SRow → Bool) (st : EtlState) (df : Frame) (commitOk : Bool) :
    Except (String × EtlState) EtlState :=
  if commitOk then
    .ok (processChunk fails st df)
  else
    .error ("commit failed", processRows fails st (clean_data df).rows)

/-- One event of the run, as the try-block sees it: either the CSV reader
yields a chunk (whose commit may fail), or reading raises. -/
inductive Ev where
  | chunk (df : Frame) (commitOk : Bool)
  | readErr (msg : String)
deriving Repr

/-- The chunk loop inside the `try` block: a read error or a failed
commit escapes with the in-flight state. -/
def loopChunks (fails : SRow → Bool) : List Ev → EtlState → Except (String × EtlState) EtlState
  | [], st => .ok st
  | .readErr e :: _, st => .error (e, st)
  | .chunk df ok :: rest, st =>
    match stepChunk fails st df ok with
    | .ok st' => loopChunks fails rest st'
    | .error p => .error p

/-- Observable outcome of one run of `main`. -/
structure MainResult where
  db : List SRow
  total_rows : Nat
  error_count : Nat
  printed : List Val
  fatal : Option String
  tracePrinted : Bool
  rolledBack : Bool
  cursorClosed : Bool
  connClosed : Bool
deriving Repr, DecidableEq

/-- Embedding of `main` (etl.py:49-124) after a successful connect: run
the chunk loop from the initial state; an escaping exception is caught
once, printed with a stack trace, and rolled back; the `finally` block
closes the cursor and the connection on both paths. -/
def main (fails : SRow → Bool) (evs : List Ev) : MainResult :=
  match loopChunks fails evs initState with
  | .ok st =>
    ⟨st.db, st.total_rows, st.error_count, st.printed, none, false, false, true, true⟩
  | .error (e, st) =>
    let st := rollbackTx st
    ⟨st.db, st.total_rows, st.error_count, st.printed, some e, true, true, true, true⟩

/-- Sample sink rows used to exercise the write path at concrete inputs. -/
def sampleRow1 : SRow :=
  ⟨.vInt 1, .vTime 1736035200, .vNone, .vStr "DOT", .vStr "Noise",
   .vStr "Loud", .vStr "BRONX", .vNone, .vNone⟩

/-- A second sample row sharing `unique_key` with `sampleRow1` but with
different field values. -/
def sampleRow2 : SRow :=
  ⟨.vInt 1, .vTime 1736121600, .vNone, .vStr "NYPD", .vStr "Theft",
   .vNone, .vStr "QUEENS", .vNone, .vNone⟩

/-- First sample input row: fully valid values. -/
def sampleIn1 : Row :=
  [("Unique Key", .vInt 1), ("Created Date", .vStr "2025-01-05"),
   ("Borough", .vStr "BRONX"), ("Latitude", .vStr "40.8")]

/-- Second sample input row: unparseable date and latitude, missing
borough. -/
def sampleIn2 : Row :=
  [("Unique Key", .vInt 2), ("Created Date", .vStr "bad date"),
   ("Borough", .vNaN), ("Latitude", .vStr "bad")]

/-- Third sample input row: missing date and latitude, empty borough. -/
def sampleIn3 : Row :=
  [("Unique Key", .vInt 3), ("Created Date", .vNaN),
   ("Borough", .vStr ""), ("Latitude", .vNaN)]

/-- A sample chunk exercising the cleaning rules at concrete inputs. -/
def sampleChunk : Frame :=
  ⟨["Unique Key", "Created Date", "Borough", "Latitude"],
   [sampleIn1, sampleIn2, sampleIn3]⟩

/-- A one-row chunk whose borough is a whitespace-only string. -/
def wsChunk : Frame :=
  ⟨["Borough"], [[("Borough", .vStr " ")]]⟩

/-- A three-row chunk with distinct keys, used to exercise the per-row
error handling. -/
def keyedChunk : Frame :=
  ⟨["Unique Key"],
   [[("Unique Key", .vInt 1)], [("Unique Key", .vInt 2)], [("Unique Key", .vInt 3)]]⟩

/-- A write-failure oracle that rejects exactly the row with key 2. -/
def failsKey2 (r : SRow) : Bool :=
  r.unique_key == .vInt 2

/-- Whether an event makes the run's try-block raise (a source read error
or a failing commit). -/
def evFatal : Ev → Bool
  | .readErr _ => true
  | .chunk _ ok => !ok

/-- The state after a list of non-fatal events. -/
def chunksState (fails : SRow → Bool) (st : EtlState) (evs : List Ev) : EtlState :=
  evs.foldl
    (fun s ev =>
      match ev with
      | .chunk df _ => processChunk fails s df
      | .readErr _ => s)
    st

/-- Embedding of etl.py:107: `total_rows / duration if duration > 0 else 0`. -/
def rows_per_sec (total : Rat) (duration : Rat) : Rat :=
  if 0 < duration then total / duration else 0

/-- Two-digit zero-padded rendering of `n < 100`. -/
def pad2 (n : Int) : String :=
  if n < 10 then "0" ++ toString n else toString n

/-- Models Python's `f"{x:.2f}"` on a nonnegative exact value: round to
hundredths, print two decimal places. -/
def format2 (q : Rat) : String :=
  let n : Int := ratFloor (q * 100 + 1 / 2)
  toString (n / 100) ++ "." ++ pad2 (n % 100)

/-! ## Lemmas about rows and lookups -/

theorem rlookup_cons (c k : String) (v : Val) (r : Row) :
    rlookup c ((k, v) :: r) = if k = c then some v else rlookup c r := rfl

theorem mapColRow_cons (c : String) (f : Val → Val) (k : String) (v : Val) (t : Row) :
    mapColRow c f ((k, v) :: t) =
      (if k = c then (k, f v) else (k, v)) :: mapColRow c f t := rfl

theorem keys_cons (k : String) (v : Val) (t : Row) :
    keys ((k, v) :: t) = k :: keys t := rfl

@[simp]
theorem rlookup_mapColRow (c c' : String) (f : Val → Val) (r : Row) :
    rlookup c' (mapColRow c f r) =
      if c' = c then (rlookup c' r).map f else rlookup c' r := by
  induction r with
  | nil => simp [mapColRow, rlookup]
  | cons p t ih =>
    obtain ⟨k, v⟩ := p
    rw [mapColRow_cons, rlookup_cons c' k v t]
    by_cases hk : k = c
    · rw [if_pos hk, rlookup_cons]
      by_cases hk' : k = c'
      · rw [if_pos (hk'.symm.trans hk), if_pos hk', if_pos hk']
        rfl
      · have hcc : ¬c' = c := fun h => hk' (hk.trans h.symm)
        rw [if_neg hk', ih, if_neg hcc, if_neg hcc, if_neg hk']
    · rw [if_neg hk, rlookup_cons]
      by_cases hk' : k = c'
      · have hcc : ¬c' = c := fun h => hk (hk'.trans h)
        rw [if_pos hk', if_neg hcc, if_pos hk']
      · rw [if_neg hk', ih, if_neg hk']

@[simp]
theorem rlookup_mapSnd (c : String) (f : Val → Val) (r : Row) :
    rlookup c (r.map (fun p => (p.1, f p.2))) = (rlookup c r).map f := by
  induction r with
  | nil => simp [rlookup]
  | cons p t ih =>
    obtain ⟨k, v⟩ := p
    rw [List.map_cons]
    change rlookup c ((k, f v) :: List.map (fun p => (p.1, f p.2)) t)
      = (rlookup c ((k, v) :: t)).map f
    rw [rlookup_cons, rlookup_cons]
    by_cases hk : k = c
    · rw [if_pos hk, if_pos hk]
      rfl
    · rw [if_neg hk, ih, if_neg hk]

@[simp]
theorem keys_mapColRow (c : String) (f : Val → Val) (r : Row) :
    keys (mapColRow c f r) = keys r := by
  induction r with
  | nil => rfl
  | cons p t ih =>
    obtain ⟨k, v⟩ := p
    rw [mapColRow_cons, keys_cons]
    by_cases hk : k = c
    · rw [if_pos hk, keys_cons, ih]
    · rw [if_neg hk, keys_cons, ih]

@[simp]
theorem keys_mapSnd (f : Val → Val) (r : Row) :
    keys (r.map (fun p => (p.1, f p.2))) = keys r := by
  induction r with
  | nil => rfl
  | cons p t ih =>
    obtain ⟨k, v⟩ := p
    rw [List.map_cons]
    change keys ((k, f v) :: List.map (fun p => (p.1, f p.2)) t) = keys ((k, v) :: t)
    rw [keys_cons, keys_cons, ih]

theorem rlookup_isSome_of_mem_keys {c : String} {r : Row} (h : c ∈ keys r) :
    (rlookup c r).isSome := by
  induction r with
  | nil => simp [keys] at h
  | cons p t ih =>
    obtain ⟨k, v⟩ := p
    rw [rlookup_cons]
    by_cases hk : k = c
    · rw [if_pos hk]
      rfl
    · rw [if_neg hk]
      rw [keys_cons] at h
      rcases List.mem_cons.mp h with h1 | h2
      · exact absurd h1.symm hk
      · exact ih h2

theorem rlookup_eq_none_of_not_mem_keys {c : String} {r : Row} (h : c ∉ keys r) :
    rlookup c r = none := by
  induction r with
  | nil => rfl
  | cons p t ih =>
    obtain ⟨k, v⟩ := p
    rw [keys_cons] at h
    have h1 : ¬(c = k ∨ c ∈ keys t) := fun hor => h (List.mem_cons.mpr hor)
    rw [rlookup_cons, if_neg (fun he : k = c => h1 (Or.inl he.symm))]
    exact ih (fun hc => h1 (Or.inr hc))

theorem keys_rowClean (cols : List String) (r : Row) :
    keys (rowClean cols r) = keys r := by
  simp only [rowClean]
  split_ifs <;> simp

/-- `clean_data` acts row by row. -/
theorem clean_data_rows (df : Frame) :
    clean_data df = ⟨df.cols, df.rows.map (rowClean df.cols)⟩ := by
  by_cases h1 : "Borough" ∈ df.cols <;>
  by_cases h2 : "Created Date" ∈ df.cols <;>
  by_cases h3 : "Closed Date" ∈ df.cols <;>
  by_cases h4 : "Latitude" ∈ df.cols <;>
  by_cases h5 : "Longitude" ∈ df.cols <;>
    simp [clean_data, rowClean, mapFrameCol, mapFrameAll, h1, h2, h3, h4, h5,
      List.map_map, Function.comp]

theorem rlookup_rowClean_borough (cols : List String) (r : Row) (h : "Borough" ∈ cols) :
    rlookup "Borough" (rowClean cols r) =
      (rlookup "Borough" r).map
        (fun v => nanToNone (replaceEmptyUnknown (fillnaUnknown v))) := by
  simp only [rowClean]
  rw [if_pos h]
  split_ifs <;> simp [Option.map_map, Function.comp_def]

theorem rlookup_rowClean_date (cols : List String) (r : Row) (c : String)
    (hc : c = "Created Date" ∨ c = "Closed Date") (h : c ∈ cols) :
    rlookup c (rowClean cols r) =
      (rlookup c r).map (fun v => nanToNone (pdToDatetime v)) := by
  rcases hc with rfl | rfl <;>
    (simp only [rowClean]; rw [if_pos h]; split_ifs <;> simp [Option.map_map, Function.comp_def])

theorem rlookup_rowClean_num (cols : List String) (r : Row) (c : String)
    (hc : c = "Latitude" ∨ c = "Longitude") (h : c ∈ cols) :
    rlookup c (rowClean cols r) =
      (rlookup c r).map (fun v => nanToNone (pdToNumeric v)) := by
  rcases hc with rfl | rfl <;>
    (simp only [rowClean]; rw [if_pos h]; split_ifs <;> simp [Option.map_map, Function.comp_def])

theorem rlookup_rowClean_none (cols : List String) (r : Row) (c : String)
    (h : rlookup c r = none) :
    rlookup c (rowClean cols r) = none := by
  simp only [rowClean]
  split_ifs <;> simp [h]

theorem nanToNone_ne_nan (v : Val) : nanToNone v ≠ .vNaN := by
  cases v <;> simp [nanToNone]

theorem rowClean_eq_map (cols : List String) (r : Row) :
    ∃ r', rowClean cols r = List.map (fun (p : String × Val) => (p.1, nanToNone p.2)) r' :=
  ⟨_, rfl⟩

theorem cleanBorough_not_missing (v : Val) :
    pdIsna (nanToNone (replaceEmptyUnknown (fillnaUnknown v))) = false ∧
    nanToNone (replaceEmptyUnknown (fillnaUnknown v)) ≠ .vStr "" := by
  cases v <;>
    simp [fillnaUnknown, replaceEmptyUnknown, nanToNone, pdIsna] <;>
    split_ifs <;>
    simp_all [pdIsna]

theorem safe_value_of_not_missing {v : Val} (h : pdIsna v = false) : safe_value v = v := by
  simp [safe_value, h]

/-! ## Lemmas about the write loop -/

theorem processRows_eq_execRows (fails : SRow → Bool) (rows : List Row) :
    ∀ st, processRows fails st rows = execRows fails st (rows.map bindRow) := by
  induction rows with
  | nil => intro st; rfl
  | cons r t ih =>
    intro st
    show processRows fails (writeRow fails st r) t
      = execRows fails (execRow fails st (bindRow r)) (t.map bindRow)
    exact ih _

theorem execRow_committedDb (fails : SRow → Bool) (st : EtlState) (r : SRow) :
    (execRow fails st r).committedDb = st.committedDb := by
  unfold execRow
  split_ifs <;> rfl

theorem execRow_total_rows (fails : SRow → Bool) (st : EtlState) (r : SRow) :
    (execRow fails st r).total_rows = st.total_rows := by
  unfold execRow
  split_ifs <;> rfl

theorem execRows_committedDb (fails : SRow → Bool) (rs : List SRow) :
    ∀ st, (execRows fails st rs).committedDb = st.committedDb := by
  induction rs with
  | nil => intro st; rfl
  | cons r t ih =>
    intro st
    show (execRows fails (execRow fails st r) t).committedDb = st.committedDb
    rw [ih, execRow_committedDb]

theorem execRows_total_rows (fails : SRow → Bool) (rs : List SRow) :
    ∀ st, (execRows fails st rs).total_rows = st.total_rows := by
  induction rs with
  | nil => intro st; rfl
  | cons r t ih =>
    intro st
    show (execRows fails (execRow fails st r) t).total_rows = st.total_rows
    rw [ih, execRow_total_rows]

theorem execRows_error_count (fails : SRow → Bool) (rs : List SRow) :
    ∀ st, (execRows fails st rs).error_count = st.error_count + rs.countP fails := by
  induction rs with
  | nil => intro st; simp [execRows]
  | cons r t ih =>
    intro st
    show (execRows fails (execRow fails st r) t).error_count = _
    rw [ih]
    by_cases hf : fails r
    · simp [execRow, hf, List.countP_cons]
      omega
    · simp [execRow, hf, List.countP_cons]

theorem execRows_db_length (fails : SRow → Bool) (rs : List SRow) :
    ∀ st, (∀ r ∈ rs, ∀ x ∈ st.db, x.unique_key ≠ r.unique_key) →
      (rs.map SRow.unique_key).Nodup →
      (execRows fails st rs).db.length = st.db.length + rs.countP (fun r => !fails r) := by
  induction rs with
  | nil => intro st _ _; simp [execRows]
  | cons r t ih =>
    intro st hdisj hnodup
    have hnd := List.nodup_cons.mp hnodup
    have hnd' : (t.map SRow.unique_key).Nodup := hnd.2
    show (execRows fails (execRow fails st r) t).db.length = _
    by_cases hf : fails r
    · have hdb : (execRow fails st r).db = st.db := by simp [execRow, hf]
      have hd' : ∀ r' ∈ t, ∀ x ∈ (execRow fails st r).db, x.unique_key ≠ r'.unique_key := by
        rw [hdb]
        exact fun r' hr' x hx => hdisj r' (List.mem_cons_of_mem _ hr') x hx
      rw [ih _ hd' hnd', hdb, List.countP_cons]
      simp [hf]
    · have hfil : st.db.filter (fun x => decide (x.unique_key ≠ r.unique_key)) = st.db :=
        List.filter_eq_self.mpr (fun x hx => by
          simpa using hdisj r (List.mem_cons_self _ _) x hx)
      have hdb : (execRow fails st r).db = st.db ++ [r] := by
        unfold execRow
        rw [if_neg hf]
        show replaceInto st.db r = st.db ++ [r]
        unfold replaceInto
        rw [hfil]
      have hd' : ∀ r' ∈ t, ∀ x ∈ (execRow fails st r).db, x.unique_key ≠ r'.unique_key := by
        rw [hdb]
        intro r' hr' x hx
        rcases List.mem_append.mp hx with hx | hx
        · exact hdisj r' (List.mem_cons_of_mem _ hr') x hx
        · rcases List.mem_singleton.mp hx with rfl
          intro heq
          exact hnd.1 (heq ▸ List.mem_map_of_mem SRow.unique_key hr')
      rw [ih _ hd' hnd', hdb, List.countP_cons]
      simp [hf]
      omega

theorem execRows_db_preserved (fails : SRow → Bool) (rs : List SRow) :
    ∀ st (r : SRow), r ∈ st.db → (∀ r' ∈ rs, r'.unique_key ≠ r.unique_key) →
      r ∈ (execRows fails st rs).db := by
  induction rs with
  | nil => intro st r hin _; exact hin
  | cons a t ih =>
    intro st r hin hk
    show r ∈ (execRows fails (execRow fails st a) t).db
    apply ih
    · by_cases hf : fails a
      · simpa [execRow, hf] using hin
      · simp only [execRow, hf]
        simp only [if_neg (by simp [hf] : ¬fails a = true), replaceInto]
        apply List.mem_append.mpr
        left
        refine List.mem_filter.mpr ⟨hin, ?_⟩
        simp only [decide_eq_true_eq]
        exact fun h => hk a (List.mem_cons_self _ _) (h ▸ rfl)
    · exact fun r' hr' => hk r' (List.mem_cons_of_mem _ hr')

theorem execRows_db_mem (fails : SRow → Bool) (rs : List SRow) :
    ∀ st (r : SRow), r ∈ rs → fails r = false →
      (rs.map SRow.unique_key).Nodup →
      (∀ r' ∈ rs, ∀ x ∈ st.db, x.unique_key ≠ r'.unique_key) →
      r ∈ (execRows fails st rs).db := by
  induction rs with
  | nil => intro st r hr; cases hr
  | cons a t ih =>
    intro st r hr hf hnodup hdisj
    have hnd := List.nodup_cons.mp hnodup
    rcases List.mem_cons.mp hr with rfl | hrt
    · show r ∈ (execRows fails (execRow fails st r) t).db
      apply execRows_db_preserved
      · simp [execRow, hf, replaceInto]
      · intro r' hr' heq
        exact hnd.1 (heq ▸ List.mem_map_of_mem SRow.unique_key hr')
    · show r ∈ (execRows fails (execRow fails st a) t).db
      apply ih _ _ hrt hf hnd.2
      intro r' hr' x hx
      by_cases hfa : fails a
      · have hdb : (execRow fails st a).db = st.db := by simp [execRow, hfa]
        rw [hdb] at hx
        exact hdisj r' (List.mem_cons_of_mem _ hr') x hx
      · have hx' : x ∈ st.db.filter (fun y => decide (y.unique_key ≠ a.unique_key)) ++ [a] := by
          simpa [execRow, hfa, replaceInto] using hx
        rcases List.mem_append.mp hx' with hx'' | hx''
        · exact hdisj r' (List.mem_cons_of_mem _ hr') x (List.mem_filter.mp hx'').1
        · rcases List.mem_singleton.mp hx'' with rfl
          intro heq
          exact hnd.1 (heq ▸ List.mem_map_of_mem SRow.unique_key hr')

theorem execRow_printed_inv (fails : SRow → Bool) (st : EtlState) (r : SRow)
    (h : st.printed.length = min st.error_count 10) :
    (execRow fails st r).printed.length = min (execRow fails st r).error_count 10 := by
  by_cases hf : fails r
  · by_cases hle : st.error_count + 1 ≤ 10 <;>
      simp [execRow, hf, hle, List.length_append] <;> omega
  · simpa [execRow, hf] using h

theorem execRows_printed_inv (fails : SRow → Bool) (rs : List SRow) :
    ∀ st, st.printed.length = min st.error_count 10 →
      (execRows fails st rs).printed.length = min (execRows fails st rs).error_count 10 := by
  induction rs with
  | nil => intro st h; exact h
  | cons r t ih =>
    intro st h
    exact ih _ (execRow_printed_inv fails st r h)

/-! ## Lemmas about chunks and the whole run -/

theorem clean_data_length (df : Frame) :
    (clean_data df).rows.length = df.rows.length := by
  rw [clean_data_rows]
  simp

theorem processChunk_db (fails : SRow → Bool) (st : EtlState) (df : Frame) :
    (processChunk fails st df).db = (processRows fails st (clean_data df).rows).db := by
  unfold processChunk
  rfl

theorem processChunk_committedDb (fails : SRow → Bool) (st : EtlState) (df : Frame) :
    (processChunk fails st df).committedDb
      = (processRows fails st (clean_data df).rows).db := by
  unfold processChunk
  rfl

theorem processChunk_error_count (fails : SRow → Bool) (st : EtlState) (df : Frame) :
    (processChunk fails st df).error_count
      = (processRows fails st (clean_data df).rows).error_count := by
  unfold processChunk
  rfl

theorem processChunk_printed (fails : SRow → Bool) (st : EtlState) (df : Frame) :
    (processChunk fails st df).printed
      = (processRows fails st (clean_data df).rows).printed := by
  unfold processChunk
  rfl

theorem processChunk_total_rows (fails : SRow → Bool) (st : EtlState) (df : Frame) :
    (processChunk fails st df).total_rows
      = (processRows fails st (clean_data df).rows).total_rows
        + (clean_data df).rows.length := by
  unfold processChunk
  rfl

theorem loopChunks_cons_ok (fails : SRow → Bool) (df : Frame) (rest : List Ev)
    (st : EtlState) :
    loopChunks fails (Ev.chunk df true :: rest) st
      = loopChunks fails rest (processChunk fails st df) := rfl

theorem loopChunks_cons_commitFail (fails : SRow → Bool) (df : Frame) (rest : List Ev)
    (st : EtlState) :
    loopChunks fails (Ev.chunk df false :: rest) st
      = .error ("commit failed", processRows fails st (clean_data df).rows) := rfl

theorem loopChunks_cons_readErr (fails : SRow → Bool) (e : String) (rest : List Ev)
    (st : EtlState) :
    loopChunks fails (Ev.readErr e :: rest) st = .error (e, st) := rfl

theorem loopChunks_append_good (fails : SRow → Bool) (pre : List Ev) :
    ∀ (tl : List Ev) (st : EtlState), (∀ ev ∈ pre, evFatal ev = false) →
      loopChunks fails (pre ++ tl) st = loopChunks fails tl (chunksState fails st pre) := by
  induction pre with
  | nil => intro tl st _; rfl
  | cons ev t ih =>
    intro tl st h
    cases ev with
    | readErr e => exact absurd (h _ (List.mem_cons_self _ _)) (by simp [evFatal])
    | chunk df ok =>
      have hok : ok = true := by
        have := h _ (List.mem_cons_self _ _)
        simpa [evFatal] using this
      subst hok
      rw [List.cons_append, loopChunks_cons_ok,
        ih tl _ (fun e he => h e (List.mem_cons_of_mem _ he))]
      rfl

theorem loopChunks_good (fails : SRow → Bool) (pre : List Ev) (st : EtlState)
    (h : ∀ ev ∈ pre, evFatal ev = false) :
    loopChunks fails pre st = .ok (chunksState fails st pre) := by
  have := loopChunks_append_good fails pre [] st h
  simpa using this

theorem chunksState_cons_chunk (fails : SRow → Bool) (df : Frame) (ok : Bool)
    (t : List Ev) (st : EtlState) :
    chunksState fails st (Ev.chunk df ok :: t)
      = chunksState fails (processChunk fails st df) t := rfl

theorem chunksState_cons_readErr (fails : SRow → Bool) (e : String)
    (t : List Ev) (st : EtlState) :
    chunksState fails st (Ev.readErr e :: t) = chunksState fails st t := rfl

theorem chunksState_db_eq_committed (fails : SRow → Bool) (evs : List Ev) :
    ∀ st, st.db = st.committedDb →
      (chunksState fails st evs).db = (chunksState fails st evs).committedDb := by
  induction evs with
  | nil => intro st h; exact h
  | cons ev t ih =>
    intro st h
    cases ev with
    | readErr e => exact ih st h
    | chunk df ok =>
      rw [chunksState_cons_chunk]
      exact ih _ ((processChunk_db fails st df).trans
        (processChunk_committedDb fails st df).symm)

theorem chunksState_total_rows (fails : SRow → Bool) (dfs : List Frame) :
    ∀ st, (chunksState fails st (dfs.map (fun df => Ev.chunk df true))).total_rows
      = st.total_rows + (dfs.map (fun df => df.rows.length)).sum := by
  induction dfs with
  | nil => intro st; simp [chunksState]
  | cons df t ih =>
    intro st
    show (chunksState fails (processChunk fails st df) (t.map _)).total_rows = _
    rw [ih]
    have hpc : (processChunk fails st df).total_rows = st.total_rows + df.rows.length := by
      rw [processChunk_total_rows, processRows_eq_execRows, execRows_total_rows,
        clean_data_length]
    rw [hpc]
    simp
    omega

theorem processChunk_printed_inv (fails : SRow → Bool) (st : EtlState) (df : Frame)
    (h : st.printed.length = min st.error_count 10) :
    (processChunk fails st df).printed.length
      = min (processChunk fails st df).error_count 10 := by
  rw [processChunk_printed, processChunk_error_count, processRows_eq_execRows]
  exact execRows_printed_inv fails _ st h

theorem loopChunks_printed_inv (fails : SRow → Bool) (evs : List Ev) :
    ∀ st, st.printed.length = min st.error_count 10 →
      (∀ st', loopChunks fails evs st = .ok st' →
        st'.printed.length = min st'.error_count 10) ∧
      (∀ e st', loopChunks fails evs st = .error (e, st') →
        st'.printed.length = min st'.error_count 10) := by
  induction evs with
  | nil =>
    intro st h
    constructor
    · intro st' hok
      cases hok
      exact h
    · intro e st' herr
      cases herr
  | cons ev t ih =>
    intro st h
    cases ev with
    | readErr e =>
      constructor
      · intro st' hok
        rw [loopChunks_cons_readErr] at hok
        cases hok
      · intro e' st' herr
        rw [loopChunks_cons_readErr] at herr
        cases herr
        exact h
    | chunk df ok =>
      cases ok with
      | true =>
        rw [loopChunks_cons_ok]
        exact ih _ (processChunk_printed_inv fails st df h)
      | false =>
        constructor
        · intro st' hok
          rw [loopChunks_cons_commitFail] at hok
          cases hok
        · intro e' st' herr
          rw [loopChunks_cons_commitFail] at herr
          cases herr
          rw [processRows_eq_execRows]
          exact execRows_printed_inv fails _ st h

theorem main_ok (fails : SRow → Bool) (evs : List Ev) (st : EtlState)
    (h : loopChunks fails evs initState = .ok st) :
    main fails evs
      = ⟨st.db, st.total_rows, st.error_count, st.printed, none, false, false, true, true⟩ := by
  unfold main
  rw [h]

theorem main_error (fails : SRow → Bool) (evs : List Ev) (e : String) (st : EtlState)
    (h : loopChunks fails evs initState = .error (e, st)) :
    main fails evs
      = ⟨(rollbackTx st).db, st.total_rows, st.error_count, st.printed,
         some e, true, true, true, true⟩ := by
  unfold main
  rw [h]
  rfl

/-! ## The claims -/

/-- C1: performing the Replace-Write twice with the same `unique_key` and
different field values leaves exactly one row stored under that key, and
that row equals the second write's full 9-field tuple; indeed the double
write equals a single write of the second tuple (full-row replace, not a
field-wise merge of the two writes). -/
theorem replace_write_twice_last_wins (db : List SRow) (r1 r2 : SRow)
    (hk : r1.unique_key = r2.unique_key) :
    ((replaceInto (replaceInto db r1) r2).countP
        (fun x => x.unique_key == r2.unique_key)) = 1 ∧
    (∀ x ∈ replaceInto (replaceInto db r1) r2,
        x.unique_key = r2.unique_key → x = r2) ∧
    replaceInto (replaceInto db r1) r2 = replaceInto db r2 := by
  have h3 : replaceInto (replaceInto db r1) r2 = replaceInto db r2 := by
    simp only [replaceInto, List.filter_append, List.filter_filter]
    have hr1 : List.filter (fun x => decide (x.unique_key ≠ r2.unique_key)) [r1] = [] := by
      simp [hk]
    rw [hr1, List.append_nil]
    have hfc : List.filter
        (fun a => decide (a.unique_key ≠ r2.unique_key)
          && decide (a.unique_key ≠ r1.unique_key)) db
        = List.filter (fun x => decide (x.unique_key ≠ r2.unique_key)) db := by
      apply List.filter_congr
      intro a _
      rw [hk, Bool.and_self]
    rw [hfc]
  refine ⟨?_, ?_, h3⟩
  · rw [h3]
    simp only [replaceInto]
    rw [List.countP_append]
    have hz : List.countP (fun x => x.unique_key == r2.unique_key)
        (List.filter (fun x => decide (x.unique_key ≠ r2.unique_key)) db) = 0 := by
      apply List.countP_eq_zero.mpr
      intro a ha
      have := (List.mem_filter.mp ha).2
      simp only [decide_eq_true_eq] at this
      simp [this]
    rw [hz]
    simp
  · intro x hx hkey
    rw [h3] at hx
    simp only [replaceInto] at hx
    rcases List.mem_append.mp hx with hx | hx
    · have := (List.mem_filter.mp hx).2
      simp only [decide_eq_true_eq] at this
      exact absurd hkey this
    · exact List.mem_singleton.mp hx

/-- Witness for C1 at a concrete database and two concrete rows sharing
`unique_key = 1` with differing boroughs. -/
theorem replace_write_twice_last_wins_witness :
    sampleRow1.unique_key = sampleRow2.unique_key ∧
    (((replaceInto (replaceInto [] sampleRow1) sampleRow2).countP
        (fun x => x.unique_key == sampleRow2.unique_key)) = 1 ∧
     (∀ x ∈ replaceInto (replaceInto [] sampleRow1) sampleRow2,
        x.unique_key = sampleRow2.unique_key → x = sampleRow2) ∧
     replaceInto (replaceInto [] sampleRow1) sampleRow2 = replaceInto [] sampleRow2) :=
  ⟨rfl, replace_write_twice_last_wins [] sampleRow1 sampleRow2 rfl⟩

/-- C10: `safe_value` returns `None` exactly on the values `pd.isna`
reports missing (the NaN/NaT marker, and `None` itself) and returns every
other value unchanged; consequently each of the 9 parameters bound into
the Replace-Write is either a concrete typed value or the single
canonical `None` — never the pandas NaN/NaT marker — even for columns the
cleaning step never touched. -/
theorem safe_value_canonical :
    (∀ v : Val, (safe_value v = .vNone ↔ pdIsna v = true) ∧
      (pdIsna v = false → safe_value v = v) ∧
      safe_value v ≠ .vNaN) ∧
    (∀ row : Row, ∀ p ∈ boundParams row, p ≠ .vNaN) := by
  have hsv : ∀ v : Val, safe_value v ≠ .vNaN := by
    intro v
    cases v <;> simp [safe_value, pdIsna]
  constructor
  · intro v
    refine ⟨?_, ?_, hsv v⟩ <;> cases v <;> simp [safe_value, pdIsna]
  · intro row p hp
    simp only [boundParams, List.mem_cons, List.not_mem_nil, or_false] at hp
    rcases hp with rfl | rfl | rfl | rfl | rfl | rfl | rfl | rfl | rfl <;> exact hsv _

/-- Witness for C10: a plain string passes `safe_value` unchanged, and the
borough parameter bound for a concrete row is not NaN. -/
theorem safe_value_canonical_witness :
    pdIsna (Val.vStr "BRONX") = false ∧
    safe_value (Val.vStr "BRONX") = Val.vStr "BRONX" ∧
    (bindRow [("Unique Key", Val.vInt 7)]).borough ≠ Val.vNaN :=
  ⟨rfl, (safe_value_canonical.1 (Val.vStr "BRONX")).2.1 rfl,
   safe_value_canonical.2 [("Unique Key", Val.vInt 7)] _
     (by simp [boundParams])⟩

/-- C4 counterexample: a Borough cell holding the whitespace-only string
`" "` survives `clean_data` unchanged — it is not rewritten to
`"UNKNOWN"` — so the claim fails for whitespace-only (non-empty) values.
(`trimChars` certifies the input is whitespace-only, and it is not
empty.) -/
theorem borough_whitespace_counterexample :
    (clean_data wsChunk).rows = [[("Borough", Val.vStr " ")]] ∧
    rowGet ((clean_data wsChunk).rows.headI) "Borough" = Val.vStr " " ∧
    Val.vStr " " ≠ Val.vStr "UNKNOWN" ∧
    trimChars (" ").data = [] ∧ (" ") ≠ "" := by
  refine ⟨?_, ?_, ?_, ?_, ?_⟩ <;> decide

/-- C4 (amended): for rows of a chunk whose Borough column is present, a
missing Borough cell (NaN/NaT/None) or an exactly-empty string cleans to
`"UNKNOWN"`; any other string — including whitespace-only strings — is
left unchanged. (`clean_data` rewrites rows pointwise via `rowClean`.) -/
theorem borough_blank_or_missing_amended (df : Frame) (hB : "Borough" ∈ df.cols) :
    (clean_data df).rows = df.rows.map (rowClean df.cols) ∧
    ∀ r ∈ df.rows, ∀ v, rlookup "Borough" r = some v →
      ((pdIsna v = true ∨ v = .vStr "" →
         rlookup "Borough" (rowClean df.cols r) = some (.vStr "UNKNOWN")) ∧
       (∀ s, v = .vStr s → s ≠ "" →
         rlookup "Borough" (rowClean df.cols r) = some (.vStr s))) := by
  constructor
  · exact congrArg Frame.rows (clean_data_rows df)
  · intro r _ v hv
    have hlook := rlookup_rowClean_borough df.cols r hB
    rw [hv] at hlook
    constructor
    · intro hmiss
      rw [hlook]
      rcases hmiss with hm | rfl
      · cases v <;> simp_all [fillnaUnknown, replaceEmptyUnknown, nanToNone, pdIsna]
      · simp [fillnaUnknown, replaceEmptyUnknown, nanToNone, pdIsna]
    · rintro s rfl hs
      rw [hlook]
      simp [fillnaUnknown, replaceEmptyUnknown, nanToNone, pdIsna, hs]

/-- Witness for C4's amended statement: an empty borough cleans to
`"UNKNOWN"` in `wsChunk`'s schema, and the whitespace row survives as is. -/
theorem borough_blank_or_missing_amended_witness :
    ("Borough" ∈ wsChunk.cols) ∧
    (clean_data wsChunk).rows = wsChunk.rows.map (rowClean wsChunk.cols) ∧
    rlookup "Borough" (rowClean wsChunk.cols [("Borough", Val.vStr " ")])
      = some (Val.vStr " ") := by
  have hB : "Borough" ∈ wsChunk.cols := by decide
  have h := borough_blank_or_missing_amended wsChunk hB
  refine ⟨hB, h.1, ?_⟩
  exact (h.2 [("Borough", Val.vStr " ")] (by decide) (Val.vStr " ") (by decide)).2
    " " rfl (by decide)

/-- C3: on every row of a cleaned chunk, the borough value actually bound
into the Replace-Write (field `borough` of `bindRow`, i.e. `safe_value`
of the row's Borough with lookup default `'UNKNOWN'`) is never `None` and
never the empty string: with the Borough column present, cleaning has
normalized it; with the column absent, the write step's default
substitutes `'UNKNOWN'`. -/
theorem borough_bound_never_null (df : Frame) (hwf : df.Wf) :
    ∀ r ∈ (clean_data df).rows,
      (bindRow r).borough ≠ .vNone ∧ (bindRow r).borough ≠ .vStr "" := by
  intro r hr
  rw [clean_data_rows] at hr
  rcases List.mem_map.mp hr with ⟨r0, hr0, rfl⟩
  have hborough : (bindRow (rowClean df.cols r0)).borough
      = safe_value (rowGetD (rowClean df.cols r0) "Borough" (.vStr "UNKNOWN")) := rfl
  by_cases hB : "Borough" ∈ df.cols
  · have hlook := rlookup_rowClean_borough df.cols r0 hB
    cases hv : rlookup "Borough" r0 with
    | none =>
      rw [hv] at hlook
      rw [hborough]
      unfold rowGetD
      rw [hlook]
      decide
    | some v =>
      rw [hv] at hlook
      have hgood := cleanBorough_not_missing v
      rw [hborough]
      have hget : rowGetD (rowClean df.cols r0) "Borough" (.vStr "UNKNOWN")
          = nanToNone (replaceEmptyUnknown (fillnaUnknown v)) := by
        unfold rowGetD
        rw [hlook]
        rfl
      rw [hget, safe_value_of_not_missing hgood.1]
      refine ⟨fun h => ?_, hgood.2⟩
      rw [h] at hgood
      exact absurd hgood.1 (by simp [pdIsna])
  · have hkeys : keys r0 = df.cols := hwf r0 hr0
    have hnone : rlookup "Borough" (rowClean df.cols r0) = none := by
      apply rlookup_eq_none_of_not_mem_keys
      rw [keys_rowClean, hkeys]
      exact hB
    rw [hborough]
    unfold rowGetD
    rw [hnone]
    decide

/-- Witness for C3 on a concrete well-formed one-column chunk. -/
theorem borough_bound_never_null_witness :
    wsChunk.Wf ∧
    [("Borough", Val.vStr " ")] ∈ wsChunk.rows ∧
    ((bindRow (rowClean wsChunk.cols [("Borough", Val.vStr " ")])).borough ≠ Val.vNone ∧
     (bindRow (rowClean wsChunk.cols [("Borough", Val.vStr " ")])).borough ≠ Val.vStr "") := by
  have hwf : wsChunk.Wf := by
    intro r hr
    simp [wsChunk] at hr
    subst hr
    rfl
  refine ⟨hwf, by decide, ?_⟩
  apply borough_bound_never_null wsChunk hwf
  rw [clean_data_rows]
  simp [wsChunk]

/-- C6: Cleaning returns a chunk with the same number of rows and the
same column set as the input — it acts pointwise on rows, never dropping
or adding rows or columns (each row keeps its labels) — and afterwards no
cell holds the raw NaN/NaT marker: every value is either typed or the
canonical `None`. -/
theorem clean_data_preserves_shape (df : Frame) :
    (clean_data df).cols = df.cols ∧
    (clean_data df).rows.length = df.rows.length ∧
    (clean_data df).rows = df.rows.map (rowClean df.cols) ∧
    (∀ r : Row, keys (rowClean df.cols r) = keys r) ∧
    (∀ r ∈ (clean_data df).rows, ∀ p ∈ r, p.2 ≠ Val.vNaN) ∧
    (df.Wf → (clean_data df).Wf) := by
  have hrows := clean_data_rows df
  have hcols : (clean_data df).cols = df.cols := by rw [hrows]
  refine ⟨hcols, clean_data_length df, congrArg Frame.rows hrows,
    keys_rowClean df.cols, ?_, ?_⟩
  · intro r hr p hp
    rw [hrows] at hr
    rcases List.mem_map.mp hr with ⟨r0, _, rfl⟩
    obtain ⟨r', hr'⟩ := rowClean_eq_map df.cols r0
    rw [hr'] at hp
    rcases List.mem_map.mp hp with ⟨q, _, rfl⟩
    exact nanToNone_ne_nan q.2
  · intro hwf r hr
    rw [hrows] at hr
    rcases List.mem_map.mp hr with ⟨r0, hr0, rfl⟩
    show keys (rowClean df.cols r0) = (clean_data df).cols
    rw [hcols, keys_rowClean]
    exact hwf r0 hr0

/-- Witness for C6 on a concrete well-formed chunk. -/
theorem clean_data_preserves_shape_witness :
    wsChunk.Wf ∧ (clean_data wsChunk).Wf := by
  have hwf : wsChunk.Wf := by
    intro r hr
    simp [wsChunk] at hr
    subst hr
    rfl
  exact ⟨hwf, (clean_data_preserves_shape wsChunk).2.2.2.2.2 hwf⟩

/-- C5: cleaning a date column (`Created Date` / `Closed Date`) turns a
missing cell or an unparseable date string into the canonical NULL and a
valid ISO-like date string into the equivalent timestamp; cleaning a
coordinate column (`Latitude` / `Longitude`) turns a missing cell or a
non-numeric string into NULL and a valid numeric string into the
equivalent float; and no such parse failure rejects the row (the cleaned
chunk keeps every row). -/
theorem date_and_coordinate_cleaning (df : Frame) :
    ((clean_data df).rows = df.rows.map (rowClean df.cols) ∧
     (clean_data df).rows.length = df.rows.length) ∧
    (∀ c, (c = "Created Date" ∨ c = "Closed Date") → c ∈ df.cols →
      ∀ r ∈ df.rows, ∀ v, rlookup c r = some v →
        ((pdIsna v = true → rlookup c (rowClean df.cols r) = some .vNone) ∧
         (∀ s, v = .vStr s → parseDateStr s = none →
            rlookup c (rowClean df.cols r) = some .vNone) ∧
         (∀ s t, v = .vStr s → parseDateStr s = some t →
            rlookup c (rowClean df.cols r) = some (.vTime t)))) ∧
    (∀ c, (c = "Latitude" ∨ c = "Longitude") → c ∈ df.cols →
      ∀ r ∈ df.rows, ∀ v, rlookup c r = some v →
        ((pdIsna v = true → rlookup c (rowClean df.cols r) = some .vNone) ∧
         (∀ s, v = .vStr s → parseDecimal s = none →
            rlookup c (rowClean df.cols r) = some .vNone) ∧
         (∀ s q, v = .vStr s → parseDecimal s = some q →
            rlookup c (rowClean df.cols r) = some (.vFloat q)))) := by
  refine ⟨⟨congrArg Frame.rows (clean_data_rows df), clean_data_length df⟩, ?_, ?_⟩
  · intro c hc hcol r _ v hv
    have hlook := rlookup_rowClean_date df.cols r c hc hcol
    rw [hv] at hlook
    refine ⟨?_, ?_, ?_⟩
    · intro hm
      rw [hlook]
      cases v <;> simp_all [pdIsna, pdToDatetime, nanToNone]
    · rintro s rfl hp
      rw [hlook]
      simp [pdToDatetime, hp, nanToNone]
    · rintro s t rfl hp
      rw [hlook]
      simp [pdToDatetime, hp, nanToNone]
  · intro c hc hcol r _ v hv
    have hlook := rlookup_rowClean_num df.cols r c hc hcol
    rw [hv] at hlook
    refine ⟨?_, ?_, ?_⟩
    · intro hm
      rw [hlook]
      cases v <;> simp_all [pdIsna, pdToNumeric, nanToNone]
    · rintro s rfl hp
      rw [hlook]
      simp [pdToNumeric, hp, nanToNone]
    · rintro s q rfl hp
      rw [hlook]
      simp [pdToNumeric, hp, nanToNone]

/-- Witness for C5 at concrete cells of `sampleChunk`: the valid date
string parses to its timestamp, the invalid one cleans to NULL, and the
non-numeric latitude cleans to NULL. -/
theorem date_and_coordinate_cleaning_witness :
    ("Created Date" ∈ sampleChunk.cols) ∧
    parseDateStr "2025-01-05" = some 1736035200 ∧
    rlookup "Created Date" (rowClean sampleChunk.cols sampleIn1)
      = some (.vTime 1736035200) ∧
    parseDateStr "bad date" = none ∧
    rlookup "Created Date" (rowClean sampleChunk.cols sampleIn2) = some .vNone ∧
    parseDecimal "bad" = none ∧
    rlookup "Latitude" (rowClean sampleChunk.cols sampleIn2) = some .vNone := by
  have h := date_and_coordinate_cleaning sampleChunk
  have hd := h.2.1 "Created Date" (Or.inl rfl) (by decide)
  have hn := h.2.2 "Latitude" (Or.inl rfl) (by decide)
  refine ⟨by decide, by decide, ?_, by decide, ?_, by decide, ?_⟩
  · exact (hd sampleIn1 (by decide) (.vStr "2025-01-05") (by decide)).2.2
      "2025-01-05" 1736035200 rfl (by decide)
  · exact (hd sampleIn2 (by decide) (.vStr "bad date") (by decide)).2.1
      "bad date" rfl (by decide)
  · exact (hn sampleIn2 (by decide) (.vStr "bad") (by decide)).2.1
      "bad" rfl (by decide)

/-- C7: on a run whose chunks all load and commit, the reported total of
processed rows equals the sum of the chunk lengths — every input row
counted once, for every write-failure oracle `fails` (failed rows are
still counted) and regardless of duplicate keys — and such a run ends
without a fatal error. -/
theorem total_rows_counts_every_input_row (fails : SRow → Bool) (dfs : List Frame) :
    (main fails (dfs.map (fun df => Ev.chunk df true))).total_rows
      = (dfs.map (fun df => df.rows.length)).sum ∧
    (main fails (dfs.map (fun df => Ev.chunk df true))).fatal = none := by
  have hgood : ∀ ev ∈ dfs.map (fun df => Ev.chunk df true), evFatal ev = false := by
    intro ev hev
    rcases List.mem_map.mp hev with ⟨df, _, rfl⟩
    rfl
  have hok := loopChunks_good fails _ initState hgood
  rw [main_ok fails _ _ hok]
  refine ⟨?_, rfl⟩
  show (chunksState fails initState _).total_rows = _
  rw [chunksState_total_rows]
  simp [initState]

theorem countP_not_add {α : Type} (p : α → Bool) (l : List α) :
    l.countP (fun a => !p a) + l.countP p = l.length := by
  induction l with
  | nil => rfl
  | cons a t ih =>
    rw [List.countP_cons, List.countP_cons]
    by_cases h : p a <;> simp [h] <;> omega

/-- C2: in a chunk whose bound rows have distinct keys and where exactly
one row's write fails, the chunk still commits all the other rows (one
fewer than the row count) with the error counter at 1, and every
non-failing row — in particular each row after the failing one — is
persisted; in general every per-row failure increments the error counter
without aborting the loop, and over any whole run the number of printed
error messages is `min(error_count, 10)`, hence at most 10. -/
theorem per_row_failure_isolation :
    (∀ (fails : SRow → Bool) (df : Frame),
      ((((clean_data df).rows.map bindRow).map SRow.unique_key).Nodup) →
      (((clean_data df).rows.map bindRow).countP fails = 1) →
      ((processChunk fails initState df).db.length + 1 = df.rows.length ∧
       (processChunk fails initState df).committedDb.length + 1 = df.rows.length ∧
       (processChunk fails initState df).error_count = 1 ∧
       (∀ r ∈ (clean_data df).rows.map bindRow, fails r = false →
          r ∈ (processChunk fails initState df).committedDb))) ∧
    (∀ (fails : SRow → Bool) (st : EtlState) (rows : List Row),
      (processRows fails st rows).error_count
        = st.error_count + (rows.map bindRow).countP fails) ∧
    (∀ (fails : SRow → Bool) (evs : List Ev),
      (main fails evs).printed.length = min (main fails evs).error_count 10 ∧
      (main fails evs).printed.length ≤ 10) := by
  refine ⟨?_, ?_, ?_⟩
  · intro fails df hnodup hone
    have hdisj : ∀ r ∈ (clean_data df).rows.map bindRow,
        ∀ x ∈ initState.db, x.unique_key ≠ r.unique_key := by
      intro r _ x hx
      cases hx
    have hlen : ((clean_data df).rows.map bindRow).length = df.rows.length := by
      rw [List.length_map, clean_data_length]
    have hdb : (processChunk fails initState df).db.length
        = ((clean_data df).rows.map bindRow).countP (fun r => !fails r) := by
      rw [processChunk_db, processRows_eq_execRows,
        execRows_db_length fails _ initState hdisj hnodup]
      simp [initState]
    have hcount := countP_not_add fails ((clean_data df).rows.map bindRow)
    refine ⟨?_, ?_, ?_, ?_⟩
    · rw [hdb]
      omega
    · have : (processChunk fails initState df).committedDb
          = (processChunk fails initState df).db := by
        rw [processChunk_db, processChunk_committedDb]
      rw [this, hdb]
      omega
    · rw [processChunk_error_count, processRows_eq_execRows, execRows_error_count, hone]
      decide
    · intro r hr hf
      have : (processChunk fails initState df).committedDb
          = (execRows fails initState ((clean_data df).rows.map bindRow)).db := by
        rw [processChunk_committedDb, processRows_eq_execRows]
      rw [this]
      exact execRows_db_mem fails _ initState r hr hf hnodup hdisj
  · intro fails st rows
    rw [processRows_eq_execRows, execRows_error_count]
  · intro fails evs
    have hinit : initState.printed.length = min initState.error_count 10 := by decide
    have H := loopChunks_printed_inv fails evs initState hinit
    rcases h : loopChunks fails evs initState with ⟨e, st⟩ | st
    · have hm := H.2 e st h
      rw [main_error fails evs e st h]
      refine ⟨hm, ?_⟩
      show st.printed.length ≤ 10
      omega
    · have hm := H.1 st h
      rw [main_ok fails evs st h]
      refine ⟨hm, ?_⟩
      show st.printed.length ≤ 10
      omega

/-- Witness for C2: a 3-row chunk with keys 1,2,3 where exactly the write
of key 2 fails ends with 2 rows committed and one counted error. -/
theorem per_row_failure_isolation_witness :
    ((((clean_data keyedChunk).rows.map bindRow).map SRow.unique_key).Nodup) ∧
    (((clean_data keyedChunk).rows.map bindRow).countP failsKey2 = 1) ∧
    ((processChunk failsKey2 initState keyedChunk).db.length + 1
        = keyedChunk.rows.length ∧
     (processChunk failsKey2 initState keyedChunk).committedDb.length + 1
        = keyedChunk.rows.length ∧
     (processChunk failsKey2 initState keyedChunk).error_count = 1 ∧
     (∀ r ∈ (clean_data keyedChunk).rows.map bindRow, failsKey2 r = false →
        r ∈ (processChunk failsKey2 initState keyedChunk).committedDb)) := by
  have h1 : (((clean_data keyedChunk).rows.map bindRow).map SRow.unique_key).Nodup := by
    decide
  have h2 : ((clean_data keyedChunk).rows.map bindRow).countP failsKey2 = 1 := by
    decide
  exact ⟨h1, h2, per_row_failure_isolation.1 failsKey2 keyedChunk h1 h2⟩

/-- C8: if the try-block raises past the per-row boundary — a chunk read
error or a failing commit, after any prefix of successful chunks — the
rest of the run is aborted with a fatal error, a stack trace is printed,
the in-flight transaction is rolled back so that the surviving table
contents equal exactly what the successful prefix had committed, and (on
this path as on every exit path) the cursor and the connection are
closed. -/
theorem fatal_error_path (fails : SRow → Bool) (pre : List Ev) (bad : Ev)
    (rest : List Ev) (hpre : ∀ ev ∈ pre, evFatal ev = false)
    (hbad : evFatal bad = true) :
    ((main fails (pre ++ bad :: rest)).fatal.isSome = true ∧
     (main fails (pre ++ bad :: rest)).rolledBack = true ∧
     (main fails (pre ++ bad :: rest)).tracePrinted = true ∧
     (main fails (pre ++ bad :: rest)).cursorClosed = true ∧
     (main fails (pre ++ bad :: rest)).connClosed = true ∧
     (main fails (pre ++ bad :: rest)).db = (main fails pre).db) ∧
    (∀ (fails' : SRow → Bool) (evs : List Ev),
      (main fails' evs).cursorClosed = true ∧ (main fails' evs).connClosed = true) := by
  have hclosed : ∀ (fails' : SRow → Bool) (evs : List Ev),
      (main fails' evs).cursorClosed = true ∧ (main fails' evs).connClosed = true := by
    intro fails' evs
    rcases h : loopChunks fails' evs initState with ⟨e, st⟩ | st
    · rw [main_error fails' evs e st h]
      exact ⟨rfl, rfl⟩
    · rw [main_ok fails' evs st h]
      exact ⟨rfl, rfl⟩
  refine ⟨?_, hclosed⟩
  have hloop := loopChunks_append_good fails pre (bad :: rest) initState hpre
  have hpreok := loopChunks_good fails pre initState hpre
  have hSdb : (chunksState fails initState pre).db
      = (chunksState fails initState pre).committedDb :=
    chunksState_db_eq_committed fails pre initState rfl
  rw [main_ok fails pre _ hpreok]
  cases bad with
  | readErr e =>
    have herr : loopChunks fails (pre ++ Ev.readErr e :: rest) initState
        = .error (e, chunksState fails initState pre) := by
      rw [hloop, loopChunks_cons_readErr]
    rw [main_error fails _ e _ herr]
    refine ⟨rfl, rfl, rfl, rfl, rfl, ?_⟩
    show (chunksState fails initState pre).committedDb = (chunksState fails initState pre).db
    exact hSdb.symm
  | chunk df ok =>
    have hok : ok = false := by
      cases ok
      · rfl
      · simp [evFatal] at hbad
    subst hok
    have herr : loopChunks fails (pre ++ Ev.chunk df false :: rest) initState
        = .error ("commit failed",
            processRows fails (chunksState fails initState pre) (clean_data df).rows) := by
      rw [hloop, loopChunks_cons_commitFail]
    rw [main_error fails _ _ _ herr]
    refine ⟨rfl, rfl, rfl, rfl, rfl, ?_⟩
    show (processRows fails (chunksState fails initState pre) (clean_data df).rows).committedDb
      = (chunksState fails initState pre).db
    rw [processRows_eq_execRows, execRows_committedDb]
    exact hSdb.symm

/-- Witness for C8: a read failure right after one committed chunk is
fatal, rolled back, traced, and leaves the prefix's table intact. -/
theorem fatal_error_path_witness :
    (∀ ev ∈ [Ev.chunk keyedChunk true], evFatal ev = false) ∧
    evFatal (Ev.readErr "file not found") = true ∧
    ((main failsKey2 ([Ev.chunk keyedChunk true]
        ++ Ev.readErr "file not found" :: [])).fatal.isSome = true ∧
     (main failsKey2 ([Ev.chunk keyedChunk true]
        ++ Ev.readErr "file not found" :: [])).rolledBack = true ∧
     (main failsKey2 ([Ev.chunk keyedChunk true]
        ++ Ev.readErr "file not found" :: [])).tracePrinted = true ∧
     (main failsKey2 ([Ev.chunk keyedChunk true]
        ++ Ev.readErr "file not found" :: [])).cursorClosed = true ∧
     (main failsKey2 ([Ev.chunk keyedChunk true]
        ++ Ev.readErr "file not found" :: [])).connClosed = true ∧
     (main failsKey2 ([Ev.chunk keyedChunk true]
        ++ Ev.readErr "file not found" :: [])).db
       = (main failsKey2 [Ev.chunk keyedChunk true]).db) := by
  have hpre : ∀ ev ∈ [Ev.chunk keyedChunk true], evFatal ev = false := by
    intro ev hev
    simp at hev
    subst hev
    rfl
  exact ⟨hpre, rfl,
    (fatal_error_path failsKey2 [Ev.chunk keyedChunk true]
      (Ev.readErr "file not found") [] hpre rfl).1⟩

/-- C9: the reported throughput equals `total_rows / duration` rows per
second when the duration is positive (10000 rows in 10.0s report as
"1000.00") and equals 0 when the duration is 0; the rendering used for
duration and throughput always shows exactly two digits after the
decimal point. -/
theorem throughput_report :
    rows_per_sec 10000 10 = 1000 ∧
    format2 (rows_per_sec 10000 10) = "1000.00" ∧
    format2 (rows_per_sec 12345 0) = "0.00" ∧
    (∀ t : Rat, rows_per_sec t 0 = 0) ∧
    (∀ total d : Rat, 0 < d → rows_per_sec total d = total / d) ∧
    (∀ q : Rat, ∃ pre : String,
      format2 q = pre ++ "." ++ pad2 (ratFloor (q * 100 + 1 / 2) % 100) ∧
      (pad2 (ratFloor (q * 100 + 1 / 2) % 100)).length = 2) := by
  refine ⟨?_, ?_, ?_, ?_, ?_, ?_⟩
  · norm_num [rows_per_sec]
  · with_unfolding_all rfl
  · with_unfolding_all rfl
  · intro t
    simp [rows_per_sec]
  · intro total d hd
    simp [rows_per_sec, hd]
  · intro q
    refine ⟨toString (ratFloor (q * 100 + 1 / 2) / 100), rfl, ?_⟩
    have h0 : 0 ≤ ratFloor (q * 100 + 1 / 2) % 100 :=
      Int.emod_nonneg _ (by norm_num)
    have h1 : ratFloor (q * 100 + 1 / 2) % 100 < 100 :=
      Int.emod_lt_of_pos _ (by norm_num)
    generalize ratFloor (q * 100 + 1 / 2) % 100 = m at h0 h1 ⊢
    interval_cases m <;> decide

/-- Witness for C9's positive-duration formula at a concrete input. -/
theorem throughput_report_witness :
    (0 : Rat) < 10 ∧ rows_per_sec 10000 10 = 10000 / 10 :=
  ⟨by norm_num, throughput_report.2.2.2.2.1 10000 10 (by norm_num)⟩

end Etl
